import Mathlib

/-!
# Verification of the BLE advertising-data parser (`src/ble_parser.py`)

Shallow embedding of the repository's decoder:

* `AdStruct` embeds the frozen dataclass `AdStruct` (`data_type: int`,
  `data: bytes`).  Bytes are modelled as `List Nat`.
* `parse_next` embeds `parse_next(data)`: on a buffer with at least two
  bytes `l :: t :: d` it returns `Ok((AdStruct(t, d[:l]), d[l:]))`;
  otherwise it returns `Err("Invalid data format.")`.
* `ad_structs_trace` embeds the generator `ad_structs(data)` as the pair
  of (the list of records it yields, how the iteration ends).  The
  generator returns on the empty buffer and otherwise calls
  `parse_next(data).unwrap()`; `unwrap` (`src/boxed/result.py`) raises
  `UnwrapError(msg)` on an `Err`, which aborts the iteration.
  `Outcome.done` is normal exhaustion of the iterator,
  `Outcome.raised msg` is the propagated exception.
-/

/-- Embeds the dataclass `AdStruct` of `src/ble_parser.py`. -/
structure AdStruct where
  data_type : Nat
  data : List Nat
deriving DecidableEq, Repr

/-- Embeds `parse_next` of `src/ble_parser.py`:
`match list(data): case [l, t, *d]: return Ok((AdStruct(t, bytes(d[:l])), bytes(d[l:]))); case _: return Err("Invalid data format.")`.
Python's slice `d[:l]` is `List.take l d` and `d[l:]` is `List.drop l d`
(the length byte `l` is a non-negative int). -/
def parse_next (data : List Nat) : Except String (AdStruct × List Nat) :=
  match data with
  | l :: t :: d => Except.ok (AdStruct.mk t (d.take l), d.drop l)
  | _ => Except.error "Invalid data format."

/-- How an iteration of the generator `ad_structs` ends: either the
generator is exhausted normally, or an exception with the given message
propagates out of it (raised by `Result.unwrap` on an `Err`). -/
inductive Outcome where
  | done : Outcome
  | raised : String → Outcome
deriving DecidableEq, Repr

/-- Embeds the generator `ad_structs` of `src/ble_parser.py` as the pair
of the yielded records and the terminal outcome:
`match data: case b"": return; case _: ad, rest = parse_next(data).unwrap(); yield ad; yield from ad_structs(rest)`.
When `parse_next` returns an `Err`, `unwrap` raises `UnwrapError(msg)`,
so nothing is yielded for that segment and the iteration aborts with the
exception. -/
def ad_structs_trace (data : List Nat) : List AdStruct × Outcome :=
  if data = [] then ([], Outcome.done)
  else
    match h : parse_next data with
    | Except.ok (ad, rest) =>
      let r := ad_structs_trace rest
      (ad :: r.1, r.2)
    | Except.error e => ([], Outcome.raised e)
termination_by data.length
decreasing_by
  rcases data with _ | ⟨l, _ | ⟨t, d⟩⟩
  · simp [parse_next] at h
  · simp [parse_next] at h
  · simp only [parse_next, Except.ok.injEq, Prod.mk.injEq] at h
    obtain ⟨-, h2⟩ := h
    rw [← h2]
    simp only [List.length_drop, List.length_cons]
    omega

/-- The encoder named by the spec in its round-trip law: for each record,
emit `len(payload)+1`, then the type byte, then the payload.  Follows the
spec's words (the repository has no encoder of its own). -/
def encode : List AdStruct → List Nat
  | [] => []
  | r :: rs => ((r.data.length + 1) :: r.data_type :: r.data) ++ encode rs

/-- `Yields data recs rem` holds when iterating the single-record reader
`parse_next` from buffer `data` successfully reads exactly the records
`recs`, in order, leaving the unconsumed remainder `rem`. -/
inductive Yields : List Nat → List AdStruct → List Nat → Prop where
  | nil (data : List Nat) : Yields data [] data
  | cons {data rest rem : List Nat} {ad : AdStruct} {recs : List AdStruct} :
      parse_next data = Except.ok (ad, rest) → Yields rest recs rem →
      Yields data (ad :: recs) rem

theorem parse_next_ok_length {data rest : List Nat} {ad : AdStruct}
    (h : parse_next data = Except.ok (ad, rest)) :
    2 + rest.length ≤ data.length := by
  rcases data with _ | ⟨l, _ | ⟨t, d⟩⟩
  · simp [parse_next] at h
  · simp [parse_next] at h
  · simp only [parse_next, Except.ok.injEq, Prod.mk.injEq] at h
    obtain ⟨-, h2⟩ := h
    rw [← h2]
    simp only [List.length_drop, List.length_cons]
    omega

theorem ad_structs_trace_nil : ad_structs_trace [] = ([], Outcome.done) := by
  unfold ad_structs_trace
  rfl

theorem ad_structs_trace_one (l : Nat) :
    ad_structs_trace [l] = ([], Outcome.raised "Invalid data format.") := by
  unfold ad_structs_trace
  rfl

theorem ad_structs_trace_cons (l t : Nat) (d : List Nat) :
    ad_structs_trace (l :: t :: d) =
      (AdStruct.mk t (d.take l) :: (ad_structs_trace (d.drop l)).1,
        (ad_structs_trace (d.drop l)).2) := by
  rw [ad_structs_trace]
  rfl

/-- C1: the claim states that decoding a concatenation of well-formed
records `(L_i, T_i, payload_i)` with `L_i = len(payload_i) + 1`
reproduces exactly the `{T_i, payload_i}` sequence.  On the spec's own
example buffer (which is exactly `encode` of the expected records, so it
is well-formed), the code instead yields `{0x01, [0x06, 0x06]}` then
`{0x01, [0x02, 0x03, 0x04, 0x05]}`: `parse_next` slices `d[:l]` payload
bytes after the type byte instead of `l - 1`. -/
theorem C1_code_behavior :
    encode [AdStruct.mk 1 [6], AdStruct.mk 255 [1, 2, 3, 4, 5]] =
      [2, 1, 6, 6, 255, 1, 2, 3, 4, 5] ∧
    ad_structs_trace [2, 1, 6, 6, 255, 1, 2, 3, 4, 5] =
      ([AdStruct.mk 1 [6, 6], AdStruct.mk 1 [2, 3, 4, 5]], Outcome.done) ∧
    ([AdStruct.mk 1 [6, 6], AdStruct.mk 1 [2, 3, 4, 5]] : List AdStruct) ≠
      [AdStruct.mk 1 [6], AdStruct.mk 255 [1, 2, 3, 4, 5]] := by
  refine ⟨rfl, ?_, by decide⟩
  rw [ad_structs_trace_cons 2 1 [6, 6, 255, 1, 2, 3, 4, 5]]
  rw [show List.drop 2 [6, 6, 255, 1, 2, 3, 4, 5] = ([255, 1, 2, 3, 4, 5] : List Nat) from rfl]
  rw [ad_structs_trace_cons 255 1 [2, 3, 4, 5]]
  rw [show List.drop 255 ([2, 3, 4, 5] : List Nat) = ([] : List Nat) from rfl]
  rw [ad_structs_trace_nil]
  rfl

/-- C2: the claim states that a successful `parse_next` on a buffer with
length byte `L` returns a payload of exactly `L - 1` bytes
(`buffer[2 .. 2+(L-1)]`) and remainder `buffer[2+(L-1) ..]`.  On
`[0x02, 0x01, 0x06, 0x05]` (`L = 2`) the code succeeds but returns the
payload `[0x06, 0x05]` of `L` bytes and the empty remainder, not the
payload `[0x06]` and remainder `[0x05]` the claim requires. -/
theorem C2_code_behavior :
    parse_next [2, 1, 6, 5] = Except.ok (AdStruct.mk 1 [6, 5], []) ∧
    ¬((AdStruct.mk 1 [6, 5]).data = [6] ∧ ([] : List Nat) = [5]) :=
  ⟨rfl, by decide⟩

/-- C3: the claim states that `[0x05, 0x01, 0x02]` (length byte 5, only
2 bytes after the header) fails with `Truncated` and yields zero
records.  The code instead succeeds, silently truncating the payload to
the single available byte, and the stream yields one record and
terminates cleanly with no error. -/
theorem C3_code_behavior :
    parse_next [5, 1, 2] = Except.ok (AdStruct.mk 1 [2], []) ∧
    ad_structs_trace [5, 1, 2] = ([AdStruct.mk 1 [2]], Outcome.done) := by
  refine ⟨rfl, ?_⟩
  rw [ad_structs_trace_cons 5 1 [2]]
  rw [show List.drop 5 ([2] : List Nat) = ([] : List Nat) from rfl]
  rw [ad_structs_trace_nil]
  rfl

/-- C4: the claim states that a buffer starting with length byte 0 fails
with `ZeroLength`, and in particular `[0x00, 0x01]` yields no records
and a `ZeroLength` error.  The code has no zero-length check: it
succeeds with an empty payload, and the stream yields one record
`{0x01, []}` and terminates cleanly with no error. -/
theorem C4_code_behavior :
    parse_next [0, 1] = Except.ok (AdStruct.mk 1 [], []) ∧
    ad_structs_trace [0, 1] = ([AdStruct.mk 1 []], Outcome.done) := by
  refine ⟨rfl, ?_⟩
  rw [ad_structs_trace_cons 0 1 []]
  rw [show List.drop 0 ([] : List Nat) = ([] : List Nat) from rfl]
  rw [ad_structs_trace_nil]
  rfl

/-- C5: the claim states `encode(decode(buffer)) == buffer` for any
buffer composed solely of well-formed records.  The buffer
`[2, 1, 6, 2, 2, 7]` is `encode` of two well-formed records, but the
code decodes it to `{1, [6, 2]}` and `{7, []}` (misaligned framing), and
re-encoding those gives `[3, 1, 6, 2, 1, 7]`, not the original buffer:
the consumed prefix is not reconstructed. -/
theorem C5_code_behavior :
    encode [AdStruct.mk 1 [6], AdStruct.mk 2 [7]] = [2, 1, 6, 2, 2, 7] ∧
    ad_structs_trace [2, 1, 6, 2, 2, 7] =
      ([AdStruct.mk 1 [6, 2], AdStruct.mk 7 []], Outcome.done) ∧
    encode [AdStruct.mk 1 [6, 2], AdStruct.mk 7 []] ≠ [2, 1, 6, 2, 2, 7] := by
  refine ⟨rfl, ?_, by decide⟩
  rw [ad_structs_trace_cons 2 1 [6, 2, 2, 7]]
  rw [show List.drop 2 [6, 2, 2, 7] = ([2, 7] : List Nat) from rfl]
  rw [ad_structs_trace_cons 2 7 []]
  rw [show List.drop 2 ([] : List Nat) = ([] : List Nat) from rfl]
  rw [ad_structs_trace_nil]
  rfl

/-- C6 counterexample: the claim states that when the reader fails, the
terminal error is surfaced to the consumer as a value of the sequence,
not an exception.  On `[0x02, 0x01, 0x06, 0x07, 0x09]` the reader fails
on the remainder `[0x09]`; the iteration does not end normally with an
error value (the element type `AdStruct` has no error variant): it
aborts with the raised `UnwrapError` exception. -/
theorem C6_counterexample :
    ad_structs_trace [2, 1, 6, 7, 9] =
      ([AdStruct.mk 1 [6, 7]], Outcome.raised "Invalid data format.") ∧
    (ad_structs_trace [2, 1, 6, 7, 9]).2 ≠ Outcome.done := by
  have h1 : ad_structs_trace [2, 1, 6, 7, 9] =
      ([AdStruct.mk 1 [6, 7]], Outcome.raised "Invalid data format.") := by
    rw [ad_structs_trace_cons 2 1 [6, 7, 9]]
    rw [show List.drop 2 [6, 7, 9] = ([9] : List Nat) from rfl]
    rw [ad_structs_trace_one 9]
    rfl
  refine ⟨h1, ?_⟩
  rw [h1]
  simp

/-- C6 amended: whenever decoding a buffer ends with a raised exception,
the records yielded before the abort are exactly those `parse_next` read
successfully before reaching a remainder on which it fails, the raised
message is that failure's error message, and nothing is yielded for the
failing segment or past it. -/
theorem C6_stream_failure (data : List Nat) (recs : List AdStruct) (e : String)
    (h : ad_structs_trace data = (recs, Outcome.raised e)) :
    ∃ rem, Yields data recs rem ∧ parse_next rem = Except.error e := by
  have main : ∀ (n : Nat) (data : List Nat), data.length ≤ n →
      ∀ (recs : List AdStruct) (e : String),
      ad_structs_trace data = (recs, Outcome.raised e) →
      ∃ rem, Yields data recs rem ∧ parse_next rem = Except.error e := by
    intro n
    induction n with
    | zero =>
      intro data hlen recs e h
      have hd : data = [] := List.eq_nil_of_length_eq_zero (Nat.le_zero.mp hlen)
      subst hd
      rw [ad_structs_trace_nil] at h
      simp at h
    | succ n ih =>
      intro data hlen recs e h
      rcases data with _ | ⟨l, _ | ⟨t, d⟩⟩
      · rw [ad_structs_trace_nil] at h
        simp at h
      · rw [ad_structs_trace_one] at h
        rw [Prod.mk.injEq] at h
        obtain ⟨hrecs, hout⟩ := h
        injection hout with he
        subst hrecs
        subst he
        exact ⟨[l], Yields.nil [l], rfl⟩
      · rw [ad_structs_trace_cons] at h
        rw [Prod.mk.injEq] at h
        obtain ⟨hrecs, hout⟩ := h
        have hlen2 : (d.drop l).length ≤ n := by
          simp only [List.length_drop]
          simp only [List.length_cons] at hlen
          omega
        obtain ⟨rem, hy, hp⟩ :=
          ih (d.drop l) hlen2 (ad_structs_trace (d.drop l)).1 e
            (by rw [← hout])
        refine ⟨rem, ?_, hp⟩
        rw [← hrecs]
        exact Yields.cons rfl hy
  exact main data.length data le_rfl recs e h

/-- C6 amended, witness: at the one-byte buffer `[0x05]` the trace is
`([], raised "Invalid data format.")`, and indeed no record was read and
`parse_next` fails on the remainder `[0x05]` itself. -/
theorem C6_stream_failure_witness :
    ∃ rem, Yields [5] [] rem ∧ parse_next rem = Except.error "Invalid data format." :=
  C6_stream_failure [5] [] "Invalid data format." (ad_structs_trace_one 5)

/-- C7: decoding the empty buffer yields the empty sequence and
terminates cleanly, with no error. -/
theorem C7_empty_decode : ad_structs_trace [] = ([], Outcome.done) :=
  ad_structs_trace_nil

/-- C8: decoding is a single forward pass whose work is bounded by the
input size: every successful `parse_next` step consumes at least the two
header bytes (the remainder is shorter by at least 2), and consequently
the number of records the stream yields is at most half the buffer
length.  Termination itself is witnessed by `ad_structs_trace` being a
total function. -/
theorem C8_termination_bound :
    (∀ (data : List Nat) (ad : AdStruct) (rest : List Nat),
        parse_next data = Except.ok (ad, rest) → 2 + rest.length ≤ data.length) ∧
    (∀ data : List Nat, 2 * (ad_structs_trace data).1.length ≤ data.length) := by
  constructor
  · intro data ad rest h
    exact parse_next_ok_length h
  · have main : ∀ (n : Nat) (data : List Nat), data.length ≤ n →
        2 * (ad_structs_trace data).1.length ≤ data.length := by
      intro n
      induction n with
      | zero =>
        intro data hlen
        have hd : data = [] := List.eq_nil_of_length_eq_zero (Nat.le_zero.mp hlen)
        subst hd
        rw [ad_structs_trace_nil]
        simp
      | succ n ih =>
        intro data hlen
        rcases data with _ | ⟨l, _ | ⟨t, d⟩⟩
        · rw [ad_structs_trace_nil]
          simp
        · rw [ad_structs_trace_one]
          simp
        · rw [ad_structs_trace_cons]
          have hdrop := ih (d.drop l) (by
            simp only [List.length_drop]
            simp only [List.length_cons] at hlen
            omega)
          simp only [List.length_drop] at hdrop
          simp only [List.length_cons]
          omega
    intro data
    exact main data.length data le_rfl

/-- C8 witness: on the buffer `[0x02, 0x01, 0x06]` the single step
consumes all three bytes, so the remainder satisfies the bound. -/
theorem C8_termination_bound_witness :
    2 + ([] : List Nat).length ≤ ([2, 1, 6] : List Nat).length :=
  C8_termination_bound.1 [2, 1, 6] (AdStruct.mk 1 [6]) [] rfl

/-- C9: `parse_next` succeeds exactly on buffers of at least two bytes,
regardless of the length byte's value or of how few bytes remain after
the header, and returns the error `"Invalid data format."` exactly on
buffers of fewer than two bytes. -/
theorem C9_success_iff :
    ∀ data : List Nat,
      ((∃ ad rest, parse_next data = Except.ok (ad, rest)) ↔ 2 ≤ data.length) ∧
      (parse_next data = Except.error "Invalid data format." ↔ data.length < 2) := by
  intro data
  rcases data with _ | ⟨l, _ | ⟨t, d⟩⟩
  · constructor
    · simp [parse_next]
    · simp [parse_next]
  · constructor
    · simp [parse_next]
    · simp [parse_next]
  · constructor
    · constructor
      · intro
        simp only [List.length_cons]
        omega
      · intro
        exact ⟨AdStruct.mk t (d.take l), d.drop l, rfl⟩
    · constructor
      · intro hc
        simp [parse_next] at hc
      · intro hc
        simp only [List.length_cons] at hc
        omega

/-- C10: on every successful `parse_next`, the payload and the remainder
partition the buffer after its two header bytes — their concatenation is
exactly `data.drop 2`, nothing duplicated or dropped — and the payload
takes exactly `min L (len(data) - 2)` bytes where `L` is the first
byte. -/
theorem C10_partition :
    ∀ (data : List Nat) (ad : AdStruct) (rest : List Nat),
      parse_next data = Except.ok (ad, rest) →
      ad.data ++ rest = data.drop 2 ∧
      ad.data.length = min (data.headD 0) (data.length - 2) := by
  intro data ad rest h
  rcases data with _ | ⟨l, _ | ⟨t, d⟩⟩
  · simp [parse_next] at h
  · simp [parse_next] at h
  · simp only [parse_next, Except.ok.injEq, Prod.mk.injEq] at h
    obtain ⟨h1, h2⟩ := h
    subst h1
    subst h2
    constructor
    · exact List.take_append_drop l d
    · simp only [List.length_take, List.headD_cons, List.length_cons]
      omega

/-- C10 witness: on `[0x03, 0x07, 0x01, 0x02]` the reader returns the
payload `[1, 2]` and empty remainder, which concatenate to the buffer
minus its header, with the payload length `min 3 2 = 2`. -/
theorem C10_partition_witness :
    (AdStruct.mk 7 [1, 2]).data ++ ([] : List Nat) = List.drop 2 [3, 7, 1, 2] ∧
    (AdStruct.mk 7 [1, 2]).data.length =
      min (List.headD [3, 7, 1, 2] 0) (List.length [3, 7, 1, 2] - 2) :=
  C10_partition [3, 7, 1, 2] (AdStruct.mk 7 [1, 2]) [] rfl
